import Mathlib

/-!
Verification of the OHLCV resampling-and-signal pipeline of the
ES-5-Year-Data-Analysis repository.

The repository expresses the same daily-aggregation workflow three times:
a pandas notebook (resample to daily bars, pct_change returns, rolling
moving averages, a significant-move filter, a correlation matrix and an
ARIMA forecast), an SQL script (GROUP BY DATE aggregation, LAG returns,
ABS filter) and an R script (group_by/summarise, rollapply moving
averages).  Prices are embedded as rationals, volumes as naturals, and
timestamps as seconds; the calendar date of a bar is its timestamp
divided by 86400.  Missing values (NaN / NA) are embedded as none.
-/

namespace ES

/-- A raw input row: columns Time, Open, High, Low, Close, Volume of the
CSV / es_data table.  Time is a timestamp in seconds; the calendar date
is derived from it. -/
structure RawBar where
  Time : ℕ
  Open : ℚ
  High : ℚ
  Low : ℚ
  Close : ℚ
  Volume : ℕ
deriving DecidableEq, Repr

/-- Calendar date of a raw bar, derived from its timestamp
(DATE(Time) in the SQL variant, as.Date / resample in the others);
86400 seconds per day, no timezone conversion. -/
def RawBar.day (b : RawBar) : ℕ := b.Time / 86400

/-- The raw bars falling on calendar date d (one GROUP BY partition). -/
def barsOn (d : ℕ) (l : List RawBar) : List RawBar :=
  l.filter (fun b => b.day == d)

/-- The distinct calendar dates present in the input. -/
def dayList (l : List RawBar) : List ℕ :=
  (l.map RawBar.day).dedup

/-- A daily OHLCV bar produced by grouping raw bars by date. -/
structure DailyBar where
  Date : ℕ
  Open : ℚ
  High : ℚ
  Low : ℚ
  Close : ℚ
  Volume : ℕ
deriving DecidableEq, Repr

/-- Reduce the raw bars of one date into a daily bar, following the R
summarise (and the pandas agg dict): Open = first(Open), High =
max(High), Low = min(Low), Close = last(Close), Volume = sum(Volume).
Returns none when the date has no bars. -/
def aggDay (d : ℕ) (l : List RawBar) : Option DailyBar :=
  match barsOn d l with
  | [] => none
  | b :: rest => some
      { Date := d
        Open := b.Open
        High := (rest.map RawBar.High).foldl max b.High
        Low := (rest.map RawBar.Low).foldl min b.Low
        Close := ((b :: rest).getLast (List.cons_ne_nil b rest)).Close
        Volume := ((b :: rest).map RawBar.Volume).sum }

/-- The daily aggregation of the R script (group_by(Date) + summarise)
and of the notebook restricted to dates that have data: one DailyBar per
distinct date of the input. -/
def es_daily (l : List RawBar) : List DailyBar :=
  (dayList l).filterMap (fun d => aggDay d l)

/-- Reduce the raw bars of one date following the SQL script instead:
MIN(Open) as Open, MAX(High) as High, MIN(Low) as Low, MAX(Close) as
Close, SUM(Volume) as Volume. -/
def sqlAggDay (d : ℕ) (l : List RawBar) : Option DailyBar :=
  match barsOn d l with
  | [] => none
  | b :: rest => some
      { Date := d
        Open := (rest.map RawBar.Open).foldl min b.Open
        High := (rest.map RawBar.High).foldl max b.High
        Low := (rest.map RawBar.Low).foldl min b.Low
        Close := (rest.map RawBar.Close).foldl max b.Close
        Volume := ((b :: rest).map RawBar.Volume).sum }

/-- The daily aggregation of the SQL script (GROUP BY DATE(Time)). -/
def sqlDaily (l : List RawBar) : List DailyBar :=
  (dayList l).filterMap (fun d => sqlAggDay d l)

/-- A row of the notebook resample output: pandas resample emits a row
for every calendar day in range, so the OHLC fields are optional (NaN on
days with no data) while sum-of-empty Volume is 0. -/
structure DailyRow where
  Date : ℕ
  Open : Option ℚ
  High : Option ℚ
  Low : Option ℚ
  Close : Option ℚ
  Volume : ℕ
deriving DecidableEq, Repr

/-- The resample row of one calendar day: first/max/min/last/sum over
the bars of that day, with NaN (none) OHLC and zero volume when the day
has no bars. -/
def resampleDay (d : ℕ) (l : List RawBar) : DailyRow :=
  match barsOn d l with
  | [] => { Date := d, Open := none, High := none, Low := none, Close := none, Volume := 0 }
  | b :: rest =>
      { Date := d
        Open := some b.Open
        High := some ((rest.map RawBar.High).foldl max b.High)
        Low := some ((rest.map RawBar.Low).foldl min b.Low)
        Close := some (((b :: rest).getLast (List.cons_ne_nil b rest)).Close)
        Volume := ((b :: rest).map RawBar.Volume).sum }

/-- Earliest calendar date of the input (minimum over all bars). -/
def loDay (b : RawBar) (rest : List RawBar) : ℕ :=
  (rest.map RawBar.day).foldl min b.day

/-- Latest calendar date of the input (maximum over all bars). -/
def hiDay (b : RawBar) (rest : List RawBar) : ℕ :=
  (rest.map RawBar.day).foldl max b.day

/-- The daily aggregation of the notebook, es_data.resample(D).agg:
one row for every calendar day from the earliest input date to the
latest, inclusive; empty input gives empty output. -/
def resampleDaily (l : List RawBar) : List DailyRow :=
  match l with
  | [] => []
  | b :: rest =>
      (List.range' (loDay b rest) (hiDay b rest - loDay b rest + 1)).map
        (fun d => resampleDay d (b :: rest))

/-- Daily percentage returns over a close series, following
es_daily.Close.pct_change() and the SQL LAG(Close, 1) OVER (ORDER BY
Date) query: the first record carries a missing value, every later
record carries (close - prev) / prev. -/
def pct_change : List ℚ → List (Option ℚ)
  | [] => []
  | c :: rest =>
      none :: List.zipWith (fun prev cur => some ((cur - prev) / prev)) (c :: rest) rest

/-- Rolling moving average with window w, following
Close.rolling(window=w).mean() and zoo rollapply(Close, w, mean,
fill = NA, align = right): missing until w records have accumulated,
then the mean of the trailing w closes. -/
def rollingMean (w : ℕ) (closes : List ℚ) : List (Option ℚ) :=
  (List.range closes.length).map (fun i =>
    if w ≤ i + 1 then some (((closes.take (i + 1)).drop (i + 1 - w)).sum / (w : ℚ))
    else none)

/-- The return column of one output record: a date paired with its
(possibly missing) daily return. -/
def returnRows (closes : List ℚ) : List (ℕ × Option ℚ) :=
  (List.range closes.length).zip (pct_change closes)

/-- Whether a (possibly missing) daily return exceeds the significance
threshold in absolute value; a missing return compares false, exactly as
NaN does in the pandas filter and in SQL ABS(Daily_Return) > 0.02. -/
def isSignificant (r : Option ℚ) : Bool :=
  match r with
  | none => false
  | some x => decide ((2 : ℚ) / 100 < |x|)

/-- The significant-move filter of the notebook
(es_daily[es_daily[Daily Return].abs() > 0.02]) and of the SQL WHERE
ABS(Daily_Return) > 0.02 query. -/
def significant_changes (rows : List (ℕ × Option ℚ)) : List (ℕ × Option ℚ) :=
  rows.filter (fun p => isSignificant p.2)

/-- Error taxonomy of the specification for the reporting stages. -/
inductive ReportError where
  | InsufficientData
  | InsufficientHistory
deriving DecidableEq, Repr

/-- Pearson correlation data of two equal-length series, modelling the
pandas corr() semantics used by the notebook: the entry is missing
(NaN) when fewer than two observations exist or a series is constant;
otherwise it carries the exact covariance and the two variances (the
correlation itself being cov / sqrt(vx * vy), delegated to the
out-of-scope numeric layer). -/
def corrEntry (xs ys : List ℚ) : Option (ℚ × ℚ × ℚ) :=
  let n := xs.length
  if n < 2 then none
  else
    let mx := xs.sum / (n : ℚ)
    let my := ys.sum / (n : ℚ)
    let cov := (List.zipWith (fun a b => (a - mx) * (b - my)) xs ys).sum
    let vx := (xs.map (fun a => (a - mx) ^ 2)).sum
    let vy := (ys.map (fun b => (b - my) ^ 2)).sum
    if vx = 0 ∨ vy = 0 then none else some (cov, vx, vy)

/-- The five numeric columns the notebook correlates. -/
def columnsOf (bar : DailyBar) : List ℚ :=
  [bar.Open, bar.High, bar.Low, bar.Close, (bar.Volume : ℚ)]

/-- One column of the daily table as a series. -/
def columnSeries (i : ℕ) (l : List DailyBar) : List ℚ :=
  l.map (fun bar => (columnsOf bar).getD i 0)

/-- The correlation reporter of the notebook: it computes
es_daily[[Open, High, Low, Close, Volume]].corr() unconditionally and
never raises, so the result is always ok; undefined correlations are
missing entries inside the matrix. -/
def correlationReport (l : List DailyBar) :
    Except ReportError (List (List (Option (ℚ × ℚ × ℚ)))) :=
  Except.ok ((List.range 5).map (fun i =>
    (List.range 5).map (fun j => corrEntry (columnSeries i l) (columnSeries j l))))

/-- The index range statsmodels predict(start, end) produces: both
endpoints inclusive. -/
def predictRange (start stop : ℕ) : List ℕ :=
  List.range' start (stop + 1 - start)

/-- The forecast indices of the notebook,
arima_result.predict(start=len(es_close), end=len(es_close) + 30):
positions len .. len + 30 of the series, all beyond the last observed
position len - 1. -/
def forecastIndices (n : ℕ) : List ℕ :=
  predictRange n (n + 30)

/-- Forecast index range for a concrete clean close series es_close:
start = len(es_close), end = len(es_close) + 30. -/
def forecastOf (es_close : List ℚ) : List ℕ :=
  forecastIndices es_close.length

/-- Example bar: first minute bar of day 0. -/
def exBar1 : RawBar :=
  { Time := 0, Open := 10, High := 10, Low := 1, Close := 7, Volume := 5 }

/-- Example bar: second minute bar of day 0, with a lower open and a
lower close than the first bar of the day. -/
def exBar2 : RawBar :=
  { Time := 60, Open := 5, High := 12, Low := 2, Close := 3, Volume := 4 }

/-- Example bar: a bar on day 2, leaving day 1 with no data. -/
def exBar3 : RawBar :=
  { Time := 2 * 86400, Open := 6, High := 8, Low := 5, Close := 7, Volume := 2 }

/-- Example daily bar for the correlation reporter. -/
def exDaily1 : DailyBar :=
  { Date := 0, Open := 10, High := 12, Low := 1, Close := 3, Volume := 9 }

/-! ### Helper lemmas on folds, filters and ranges -/

theorem le_foldl_max {α : Type*} [LinearOrder α] :
    ∀ (xs : List α) (a : α), a ≤ xs.foldl max a
  | [], _ => le_refl _
  | x :: xs, a => le_trans (le_max_left a x) (le_foldl_max xs (max a x))

theorem le_foldl_max_of_mem {α : Type*} [LinearOrder α] :
    ∀ (xs : List α) (a x : α), x ∈ xs → x ≤ xs.foldl max a
  | x' :: xs, a, x, h => by
      rcases List.mem_cons.mp h with h1 | h2
      · subst h1
        exact le_trans (le_max_right a x) (le_foldl_max xs (max a x))
      · exact le_foldl_max_of_mem xs (max a x') x h2

theorem foldl_max_mem {α : Type*} [LinearOrder α] :
    ∀ (xs : List α) (a : α), xs.foldl max a = a ∨ xs.foldl max a ∈ xs
  | [], _ => Or.inl rfl
  | x :: xs, a => by
      rcases foldl_max_mem xs (max a x) with h | h
      · rw [List.foldl_cons, h]
        rcases max_choice a x with h2 | h2
        · exact Or.inl h2
        · exact Or.inr (by rw [h2]; exact List.mem_cons_self x xs)
      · exact Or.inr (List.mem_cons_of_mem x h)

theorem foldl_min_le {α : Type*} [LinearOrder α] :
    ∀ (xs : List α) (a : α), xs.foldl min a ≤ a
  | [], _ => le_refl _
  | x :: xs, a => le_trans (foldl_min_le xs (min a x)) (min_le_left a x)

theorem foldl_min_le_of_mem {α : Type*} [LinearOrder α] :
    ∀ (xs : List α) (a x : α), x ∈ xs → xs.foldl min a ≤ x
  | x' :: xs, a, x, h => by
      rcases List.mem_cons.mp h with h1 | h2
      · subst h1
        exact le_trans (foldl_min_le xs (min a x)) (min_le_right a x)
      · exact foldl_min_le_of_mem xs (min a x') x h2

theorem foldl_min_mem {α : Type*} [LinearOrder α] :
    ∀ (xs : List α) (a : α), xs.foldl min a = a ∨ xs.foldl min a ∈ xs
  | [], _ => Or.inl rfl
  | x :: xs, a => by
      rcases foldl_min_mem xs (min a x) with h | h
      · rw [List.foldl_cons, h]
        rcases min_choice a x with h2 | h2
        · exact Or.inl h2
        · exact Or.inr (by rw [h2]; exact List.mem_cons_self x xs)
      · exact Or.inr (List.mem_cons_of_mem x h)

theorem mem_barsOn {a : RawBar} {d : ℕ} {l : List RawBar} :
    a ∈ barsOn d l ↔ a ∈ l ∧ a.day = d := by
  simp [barsOn, List.mem_filter]

theorem barsOn_cons (d : ℕ) (a : RawBar) (l : List RawBar) :
    barsOn d (a :: l) = if a.day = d then a :: barsOn d l else barsOn d l := by
  by_cases h : a.day = d <;> simp [barsOn, List.filter_cons, h]

theorem barsOn_nil (d : ℕ) : barsOn d [] = [] := rfl

theorem resampleDay_Date (d : ℕ) (l : List RawBar) : (resampleDay d l).Date = d := by
  unfold resampleDay
  cases barsOn d l <;> rfl

theorem resampleDay_Volume (d : ℕ) (l : List RawBar) :
    (resampleDay d l).Volume = ((barsOn d l).map RawBar.Volume).sum := by
  unfold resampleDay
  cases barsOn d l <;> rfl

theorem resampleDay_of_empty {d : ℕ} {l : List RawBar} (h : barsOn d l = []) :
    resampleDay d l =
      { Date := d, Open := none, High := none, Low := none, Close := none, Volume := 0 } := by
  unfold resampleDay
  rw [h]

theorem pairwise_lt_range1 : ∀ (n s : ℕ), (List.range' s n).Pairwise (· < ·)
  | 0, _ => List.Pairwise.nil
  | n + 1, s => by
      rw [List.range'_succ]
      refine List.pairwise_cons.mpr ⟨fun m hm => ?_, pairwise_lt_range1 n (s + 1)⟩
      have := (List.mem_range'_1).mp hm
      omega

theorem sum_barsOn_volume_cons (D : List ℕ) (hD : D.Nodup) (a : RawBar) (l : List RawBar) :
    (D.map (fun d => ((barsOn d (a :: l)).map RawBar.Volume).sum)).sum =
      (if a.day ∈ D then a.Volume else 0) +
        (D.map (fun d => ((barsOn d l).map RawBar.Volume).sum)).sum := by
  induction D with
  | nil => simp
  | cons d D ih =>
      have hdD : d ∉ D := (List.nodup_cons.mp hD).1
      have hD' : D.Nodup := (List.nodup_cons.mp hD).2
      by_cases hd : a.day = d
      · have hnotD : a.day ∉ D := by rw [hd]; exact hdD
        have hmem : a.day ∈ d :: D := by rw [hd]; exact List.mem_cons_self d D
        simp only [List.map_cons, List.sum_cons]
        rw [barsOn_cons, if_pos hd, List.map_cons, List.sum_cons]
        rw [ih hD', if_neg hnotD, if_pos hmem]
        omega
      · simp only [List.map_cons, List.sum_cons]
        rw [barsOn_cons, if_neg hd]
        rw [ih hD']
        by_cases hDm : a.day ∈ D
        · rw [if_pos hDm, if_pos (List.mem_cons_of_mem d hDm)]
          omega
        · rw [if_neg hDm, if_neg (by simp [List.mem_cons, hd, hDm])]
          omega

theorem sum_barsOn_volume (D : List ℕ) (hD : D.Nodup) (l : List RawBar)
    (hl : ∀ a ∈ l, a.day ∈ D) :
    (D.map (fun d => ((barsOn d l).map RawBar.Volume).sum)).sum =
      (l.map RawBar.Volume).sum := by
  induction l with
  | nil => simp [barsOn_nil]
  | cons a l ih =>
      rw [sum_barsOn_volume_cons D hD, if_pos (hl a (List.mem_cons_self a l)),
        ih (fun x hx => hl x (List.mem_cons_of_mem a hx)), List.map_cons, List.sum_cons]

theorem aggDay_of_cons {d : ℕ} {l : List RawBar} {b : RawBar} {rest : List RawBar}
    (hb : barsOn d l = b :: rest) :
    aggDay d l = some
      { Date := d
        Open := b.Open
        High := (rest.map RawBar.High).foldl max b.High
        Low := (rest.map RawBar.Low).foldl min b.Low
        Close := ((b :: rest).getLast (List.cons_ne_nil b rest)).Close
        Volume := ((b :: rest).map RawBar.Volume).sum } := by
  unfold aggDay
  rw [hb]

theorem sqlAggDay_of_cons {d : ℕ} {l : List RawBar} {b : RawBar} {rest : List RawBar}
    (hb : barsOn d l = b :: rest) :
    sqlAggDay d l = some
      { Date := d
        Open := (rest.map RawBar.Open).foldl min b.Open
        High := (rest.map RawBar.High).foldl max b.High
        Low := (rest.map RawBar.Low).foldl min b.Low
        Close := (rest.map RawBar.Close).foldl max b.Close
        Volume := ((b :: rest).map RawBar.Volume).sum } := by
  unfold sqlAggDay
  rw [hb]

theorem aggDay_of_nil {d : ℕ} {l : List RawBar} (hb : barsOn d l = []) :
    aggDay d l = none := by
  unfold aggDay
  rw [hb]

theorem sqlAggDay_of_nil {d : ℕ} {l : List RawBar} (hb : barsOn d l = []) :
    sqlAggDay d l = none := by
  unfold sqlAggDay
  rw [hb]

theorem foldl_max_mem_map (g : RawBar → ℚ) (b : RawBar) (rest : List RawBar) :
    (rest.map g).foldl max (g b) ∈ (b :: rest).map g := by
  rcases foldl_max_mem (rest.map g) (g b) with h | h
  · rw [h, List.map_cons]
    exact List.mem_cons_self _ _
  · rw [List.map_cons]
    exact List.mem_cons_of_mem _ h

theorem foldl_min_mem_map (g : RawBar → ℚ) (b : RawBar) (rest : List RawBar) :
    (rest.map g).foldl min (g b) ∈ (b :: rest).map g := by
  rcases foldl_min_mem (rest.map g) (g b) with h | h
  · rw [h, List.map_cons]
    exact List.mem_cons_self _ _
  · rw [List.map_cons]
    exact List.mem_cons_of_mem _ h

theorem le_foldl_max_map (g : RawBar → ℚ) (b : RawBar) (rest : List RawBar) :
    ∀ x ∈ (b :: rest).map g, x ≤ (rest.map g).foldl max (g b) := by
  intro x hx
  rw [List.map_cons, List.mem_cons] at hx
  rcases hx with rfl | hx
  · exact le_foldl_max _ _
  · exact le_foldl_max_of_mem _ _ _ hx

theorem foldl_min_le_map (g : RawBar → ℚ) (b : RawBar) (rest : List RawBar) :
    ∀ x ∈ (b :: rest).map g, (rest.map g).foldl min (g b) ≤ x := by
  intro x hx
  rw [List.map_cons, List.mem_cons] at hx
  rcases hx with rfl | hx
  · exact foldl_min_le _ _
  · exact foldl_min_le_of_mem _ _ _ hx

/-! ### Claim C1 -/

/-- Claim C1 counterexample: the SQL variant does not take the first
open and the last close of a date.  On two bars of the same date whose
first bar opens at 10 and whose second bar opens lower at 5, the SQL
aggregation (MIN(Open), MAX(Close)) yields open 5 while the first bar
of the date opens at 10, and yields close 7 while the last bar of the
date closes at 3; so the claimed first-open / last-close property fails
for the SQL implementation variant. -/
theorem C1_sql_counterexample :
    (sqlAggDay 0 [exBar1, exBar2]).map DailyBar.Open = some 5 ∧
    ((barsOn 0 [exBar1, exBar2]).head?).map RawBar.Open = some 10 ∧
    (sqlAggDay 0 [exBar1, exBar2]).map DailyBar.Close = some 7 ∧
    ((barsOn 0 [exBar1, exBar2]).getLast?).map RawBar.Close = some 3 ∧
    ¬((sqlAggDay 0 [exBar1, exBar2]).map DailyBar.Open =
        ((barsOn 0 [exBar1, exBar2]).head?).map RawBar.Open) ∧
    ¬((sqlAggDay 0 [exBar1, exBar2]).map DailyBar.Close =
        ((barsOn 0 [exBar1, exBar2]).getLast?).map RawBar.Close) := by
  decide

/-- Claim C1 (amended): for every non-empty group of RawBars within one
calendar date, the notebook and R variants (aggDay) produce a DailyBar
whose open is the first open of the date, high the maximum high, low
the minimum low, close the last close, and volume the sum of volumes;
the SQL variant agrees on high, low and volume but produces the minimum
open of the date as open and the maximum close of the date as close. -/
theorem C1_daily_fields (l : List RawBar) (d : ℕ) (bar sbar : DailyBar)
    (h : aggDay d l = some bar) (hs : sqlAggDay d l = some sbar) :
    ((barsOn d l).head?).map RawBar.Open = some bar.Open ∧
    ((barsOn d l).getLast?).map RawBar.Close = some bar.Close ∧
    bar.High ∈ (barsOn d l).map RawBar.High ∧
    (∀ x ∈ (barsOn d l).map RawBar.High, x ≤ bar.High) ∧
    bar.Low ∈ (barsOn d l).map RawBar.Low ∧
    (∀ x ∈ (barsOn d l).map RawBar.Low, bar.Low ≤ x) ∧
    bar.Volume = ((barsOn d l).map RawBar.Volume).sum ∧
    bar.Date = d ∧
    sbar.High = bar.High ∧ sbar.Low = bar.Low ∧
    sbar.Volume = bar.Volume ∧ sbar.Date = d ∧
    sbar.Open ∈ (barsOn d l).map RawBar.Open ∧
    (∀ x ∈ (barsOn d l).map RawBar.Open, sbar.Open ≤ x) ∧
    sbar.Close ∈ (barsOn d l).map RawBar.Close ∧
    (∀ x ∈ (barsOn d l).map RawBar.Close, x ≤ sbar.Close) := by
  cases hb : barsOn d l with
  | nil =>
      rw [aggDay_of_nil hb] at h
      exact absurd h (by simp)
  | cons b rest =>
      have hbar := Option.some.inj ((aggDay_of_cons hb).symm.trans h)
      have hsbar := Option.some.inj ((sqlAggDay_of_cons hb).symm.trans hs)
      subst hbar
      subst hsbar
      refine ⟨rfl, ?_, foldl_max_mem_map RawBar.High b rest,
        le_foldl_max_map RawBar.High b rest, foldl_min_mem_map RawBar.Low b rest,
        foldl_min_le_map RawBar.Low b rest, rfl, rfl, rfl, rfl, rfl, rfl,
        foldl_min_mem_map RawBar.Open b rest, foldl_min_le_map RawBar.Open b rest,
        foldl_max_mem_map RawBar.Close b rest, le_foldl_max_map RawBar.Close b rest⟩
      rw [List.getLast?_eq_getLast (b :: rest) (List.cons_ne_nil b rest)]
      rfl

/-- Witness for C1_daily_fields at a concrete two-bar date: the daily
high of the aggregated bar is a high attained by some bar of the date. -/
theorem C1_daily_fields_witness :
    (12 : ℚ) ∈ (barsOn 0 [exBar1, exBar2]).map RawBar.High := by
  have h := C1_daily_fields [exBar1, exBar2] 0
    { Date := 0, Open := 10, High := 12, Low := 1, Close := 3, Volume := 9 }
    { Date := 0, Open := 5, High := 12, Low := 1, Close := 7, Volume := 9 }
    (by decide) (by decide)
  exact h.2.2.1

/-! ### Claim C2 -/

/-- Claim C2 counterexample: the notebook resample output is not
restricted to the calendar dates occurring in the input.  With one bar
on day 0 and one bar on day 2 the resample output also contains a row
for day 1, a date on which no input bar exists. -/
theorem C2_resample_counterexample :
    ¬(∀ row ∈ resampleDaily [exBar1, exBar3],
        row.Date ∈ [exBar1, exBar3].map RawBar.day) := by
  decide

theorem resampleDaily_map_Date (b : RawBar) (rest : List RawBar) :
    (resampleDaily (b :: rest)).map DailyRow.Date =
      List.range' (loDay b rest) (hiDay b rest - loDay b rest + 1) := by
  unfold resampleDaily
  rw [List.map_map]
  have h1 : (List.range' (loDay b rest) (hiDay b rest - loDay b rest + 1)).map
      (DailyRow.Date ∘ fun d => resampleDay d (b :: rest)) =
      (List.range' (loDay b rest) (hiDay b rest - loDay b rest + 1)).map (fun d => d) :=
    List.map_congr_left (fun d _ => resampleDay_Date d (b :: rest))
  rw [h1]
  exact List.map_id _

theorem loDay_le_day (b : RawBar) (rest : List RawBar) :
    ∀ a ∈ b :: rest, loDay b rest ≤ a.day := by
  intro a ha
  rcases List.mem_cons.mp ha with rfl | hm
  · exact foldl_min_le _ _
  · exact foldl_min_le_of_mem _ _ _ (List.mem_map_of_mem RawBar.day hm)

theorem day_le_hiDay (b : RawBar) (rest : List RawBar) :
    ∀ a ∈ b :: rest, a.day ≤ hiDay b rest := by
  intro a ha
  rcases List.mem_cons.mp ha with rfl | hm
  · exact le_foldl_max _ _
  · exact le_foldl_max_of_mem _ _ _ (List.mem_map_of_mem RawBar.day hm)

/-- Claim C2 (amended): the notebook daily aggregation output has
exactly one row per calendar day of the closed range from the earliest
input date to the latest (so dates with no input bar also receive a
row), its dates are strictly ascending, every input date receives a
row, the sum of output volumes equals the sum of input volumes, and the
empty input yields the empty output. -/
theorem C2_resample_spec (b : RawBar) (rest : List RawBar) :
    ((resampleDaily (b :: rest)).map DailyRow.Date).Pairwise (· < ·) ∧
    (∀ d : ℕ, d ∈ (resampleDaily (b :: rest)).map DailyRow.Date ↔
        loDay b rest ≤ d ∧ d ≤ hiDay b rest) ∧
    (∀ a ∈ b :: rest, a.day ∈ (resampleDaily (b :: rest)).map DailyRow.Date) ∧
    ((resampleDaily (b :: rest)).map DailyRow.Volume).sum =
      ((b :: rest).map RawBar.Volume).sum ∧
    resampleDaily ([] : List RawBar) = [] := by
  have hlohi : loDay b rest ≤ hiDay b rest :=
    le_trans (loDay_le_day b rest b (List.mem_cons_self b rest))
      (day_le_hiDay b rest b (List.mem_cons_self b rest))
  have hmem : ∀ d : ℕ, d ∈ (resampleDaily (b :: rest)).map DailyRow.Date ↔
      loDay b rest ≤ d ∧ d ≤ hiDay b rest := by
    intro d
    rw [resampleDaily_map_Date, List.mem_range'_1]
    omega
  refine ⟨?_, hmem, ?_, ?_, rfl⟩
  · rw [resampleDaily_map_Date]
    exact pairwise_lt_range1 _ _
  · intro a ha
    exact (hmem a.day).mpr ⟨loDay_le_day b rest a ha, day_le_hiDay b rest a ha⟩
  · have hvol : (resampleDaily (b :: rest)).map DailyRow.Volume =
        (List.range' (loDay b rest) (hiDay b rest - loDay b rest + 1)).map
          (fun d => ((barsOn d (b :: rest)).map RawBar.Volume).sum) := by
      unfold resampleDaily
      rw [List.map_map]
      exact List.map_congr_left (fun d _ => resampleDay_Volume d (b :: rest))
    have hnd : (List.range' (loDay b rest) (hiDay b rest - loDay b rest + 1)).Nodup :=
      (pairwise_lt_range1 _ _).imp (fun h => Nat.ne_of_lt h)
    have hcover : ∀ a ∈ b :: rest,
        a.day ∈ List.range' (loDay b rest) (hiDay b rest - loDay b rest + 1) := by
      intro a ha
      rw [List.mem_range'_1]
      have h1 := loDay_le_day b rest a ha
      have h2 := day_le_hiDay b rest a ha
      omega
    rw [hvol, sum_barsOn_volume _ hnd _ hcover]

/-- Witness for C2_resample_spec on a concrete input with a gap day:
the output volumes of the resampled days sum to the input volumes. -/
theorem C2_resample_spec_witness :
    ((resampleDaily [exBar1, exBar3]).map DailyRow.Volume).sum =
      (([exBar1, exBar3]).map RawBar.Volume).sum :=
  (C2_resample_spec exBar1 [exBar3]).2.2.2.1

/-! ### Claim C3 -/

theorem rollingMean_length (w : ℕ) (closes : List ℚ) :
    (rollingMean w closes).length = closes.length := by
  unfold rollingMean
  rw [List.length_map, List.length_range]

theorem rollingMean_getD (w : ℕ) (closes : List ℚ) (i : ℕ) (h : i < closes.length) :
    (rollingMean w closes).getD i none =
      if w ≤ i + 1 then some (((closes.take (i + 1)).drop (i + 1 - w)).sum / (w : ℚ))
      else none := by
  unfold rollingMean
  rw [List.getD_eq_getElem?_getD, List.getElem?_map, List.getElem?_range h]
  rfl

theorem trailing_window_length (w : ℕ) (closes : List ℚ) (i : ℕ)
    (h : i < closes.length) (hw : w ≤ i + 1) :
    ((closes.take (i + 1)).drop (i + 1 - w)).length = w := by
  rw [List.length_drop, List.length_take]
  omega

/-- Claim C3: the moving average with window 20 carries a missing value
at each of the first 19 records and, at every record from the 20th
onward, equals exactly the sum of the trailing 20 closes divided by 20
(the trailing window having length exactly 20, never a short window);
the analogous statement holds for window 50. -/
theorem C3_moving_average (closes : List ℚ) (i : ℕ) (h : i < closes.length) :
    (i + 1 < 20 → (rollingMean 20 closes).getD i none = none) ∧
    (20 ≤ i + 1 →
      ((closes.take (i + 1)).drop (i + 1 - 20)).length = 20 ∧
      (rollingMean 20 closes).getD i none =
        some (((closes.take (i + 1)).drop (i + 1 - 20)).sum / 20)) ∧
    (i + 1 < 50 → (rollingMean 50 closes).getD i none = none) ∧
    (50 ≤ i + 1 →
      ((closes.take (i + 1)).drop (i + 1 - 50)).length = 50 ∧
      (rollingMean 50 closes).getD i none =
        some (((closes.take (i + 1)).drop (i + 1 - 50)).sum / 50)) := by
  refine ⟨fun hlt => ?_, fun hge => ⟨trailing_window_length 20 closes i h hge, ?_⟩,
    fun hlt => ?_, fun hge => ⟨trailing_window_length 50 closes i h hge, ?_⟩⟩
  all_goals rw [rollingMean_getD _ closes i h]
  · rw [if_neg (by omega)]
  · rw [if_pos hge]
    norm_num
  · rw [if_neg (by omega)]
  · rw [if_pos hge]
    norm_num

/-- Witness for C3_moving_average on a constant series of fifty ones:
at the fiftieth record both windows are full. -/
theorem C3_moving_average_witness :
    ((List.replicate 50 (1 : ℚ)).length = 50) ∧
    (rollingMean 20 (List.replicate 50 (1 : ℚ))).getD 49 none =
      some ((((List.replicate 50 (1 : ℚ)).take 50).drop 30).sum / 20) ∧
    (rollingMean 50 (List.replicate 50 (1 : ℚ))).getD 49 none =
      some ((((List.replicate 50 (1 : ℚ)).take 50).drop 0).sum / 50) := by
  have h := C3_moving_average (List.replicate 50 (1 : ℚ)) 49 (by decide)
  exact ⟨by decide, (h.2.1 (by omega)).2, (h.2.2.2 (by omega)).2⟩

/-! ### Claim C4 -/

theorem pct_change_length : ∀ closes : List ℚ, (pct_change closes).length = closes.length
  | [] => rfl
  | c :: rest => by
      unfold pct_change
      rw [List.length_cons, List.length_zipWith]
      simp

theorem pct_change_getD_zero :
    ∀ closes : List ℚ, (pct_change closes).getD 0 none = none
  | [] => rfl
  | _ :: _ => rfl

theorem pct_change_getD_succ :
    ∀ (closes : List ℚ) (i : ℕ), i + 1 < closes.length →
      (pct_change closes).getD (i + 1) none =
        some ((closes.getD (i + 1) 0 - closes.getD i 0) / closes.getD i 0)
  | c :: r :: rest, 0, _ => rfl
  | c :: r :: rest, i + 1, h => by
      have ih := pct_change_getD_succ (r :: rest) i (by
        simp only [List.length_cons] at h ⊢
        omega)
      have e1 : (pct_change (c :: r :: rest)).getD (i + 1 + 1) none =
          (pct_change (r :: rest)).getD (i + 1) none := rfl
      rw [e1, ih]
      simp only [List.getD_cons_succ]

/-- Claim C4: the return calculator produces one record per close in
the same order (equal lengths), the first record carries a missing
daily return, and every later record i+1 carries exactly
(close[i+1] - close[i]) / close[i]. -/
theorem C4_daily_returns (closes : List ℚ) :
    (pct_change closes).length = closes.length ∧
    (pct_change closes).getD 0 none = none ∧
    ∀ i : ℕ, i + 1 < closes.length →
      (pct_change closes).getD (i + 1) none =
        some ((closes.getD (i + 1) 0 - closes.getD i 0) / closes.getD i 0) :=
  ⟨pct_change_length closes, pct_change_getD_zero closes,
    fun i h => pct_change_getD_succ closes i h⟩

/-- Witness for C4_daily_returns at the concrete close series
[100, 103]: the second record carries the return (103 - 100) / 100. -/
theorem C4_daily_returns_witness :
    (pct_change [100, 103]).getD 1 none =
      some ((([100, 103] : List ℚ).getD 1 0 - ([100, 103] : List ℚ).getD 0 0) /
        ([100, 103] : List ℚ).getD 0 0) :=
  (C4_daily_returns [100, 103]).2.2 0 (by decide)

/-! ### Claim C5 -/

/-- Claim C5: the significant-move filter keeps a record exactly when
its daily return is defined and exceeds 2/100 in absolute value;
records with an undefined return are excluded without error.  On the
consecutive closes [100, 103] the return is 3/100 and the record is
flagged, on [100, 101] the return is 1/100 and nothing is flagged; in
both cases the first record, whose return is undefined, is excluded. -/
theorem C5_significant_filter :
    (∀ (rows : List (ℕ × Option ℚ)) (p : ℕ × Option ℚ),
        p ∈ significant_changes rows ↔
          p ∈ rows ∧ ∃ r : ℚ, p.2 = some r ∧ (2 : ℚ) / 100 < |r|) ∧
    pct_change [100, 103] = [none, some ((3 : ℚ) / 100)] ∧
    significant_changes (returnRows [100, 103]) = [(1, some ((3 : ℚ) / 100))] ∧
    pct_change [100, 101] = [none, some ((1 : ℚ) / 100)] ∧
    significant_changes (returnRows [100, 101]) = [] := by
  have hr1 : returnRows [100, 103] = [(0, none), (1, some ((3 : ℚ) / 100))] := by
    unfold returnRows pct_change
    norm_num [List.zipWith, List.range_succ, List.zip]
  have hr2 : returnRows [100, 101] = [(0, none), (1, some ((1 : ℚ) / 100))] := by
    unfold returnRows pct_change
    norm_num [List.zipWith, List.range_succ, List.zip]
  refine ⟨fun rows p => ?_, ?_, ?_, ?_, ?_⟩
  · rw [significant_changes, List.mem_filter]
    constructor
    · rintro ⟨hp, hsig⟩
      refine ⟨hp, ?_⟩
      cases hr : p.2 with
      | none => rw [hr] at hsig; simp [isSignificant] at hsig
      | some r =>
          refine ⟨r, rfl, ?_⟩
          rw [hr] at hsig
          simpa [isSignificant] using hsig
    · rintro ⟨hp, r, hr, hgt⟩
      refine ⟨hp, ?_⟩
      rw [hr]
      simpa [isSignificant] using hgt
  · unfold pct_change
    norm_num [List.zipWith]
  · rw [hr1]
    unfold significant_changes isSignificant
    norm_num [List.filter]
    rw [show (decide ((1 : ℚ) / 50 < |(3 : ℚ) / 100|)) = true from
      decide_eq_true (by rw [abs_of_pos] <;> norm_num)]
  · unfold pct_change
    norm_num [List.zipWith]
  · rw [hr2]
    unfold significant_changes isSignificant
    norm_num [List.filter]
    rw [show (decide ((1 : ℚ) / 50 < |(1 : ℚ) / 100|)) = false from
      decide_eq_false (by rw [abs_of_pos] <;> norm_num)]

/-! ### Claim C6 -/

/-- Claim C6: when every input bar has its high at or above both open
and close and its low at or below both, every daily bar produced by the
grouped aggregation (notebook and R semantics) and by the SQL
aggregation has high at or above low. -/
theorem C6_high_ge_low (l : List RawBar)
    (hvalid : ∀ a ∈ l, max a.Open a.Close ≤ a.High ∧ a.Low ≤ min a.Open a.Close) :
    (∀ bar ∈ es_daily l, bar.Low ≤ bar.High) ∧
    (∀ bar ∈ sqlDaily l, bar.Low ≤ bar.High) := by
  have key : ∀ d : ℕ, ∀ b : RawBar, ∀ rest : List RawBar, barsOn d l = b :: rest →
      (rest.map RawBar.Low).foldl min b.Low ≤ (rest.map RawBar.High).foldl max b.High := by
    intro d b rest hb
    have hbl : b ∈ l := by
      have : b ∈ barsOn d l := by
        rw [hb]
        exact List.mem_cons_self b rest
      exact (mem_barsOn.mp this).1
    have hv := hvalid b hbl
    have h1 : b.Low ≤ b.High :=
      le_trans hv.2 (le_trans (min_le_left _ _) (le_trans (le_max_left _ _) hv.1))
    exact le_trans (foldl_min_le _ _) (le_trans h1 (le_foldl_max _ _))
  constructor
  · intro bar hbar
    rcases List.mem_filterMap.mp hbar with ⟨d, _, hagg⟩
    cases hb : barsOn d l with
    | nil => rw [aggDay_of_nil hb] at hagg; exact absurd hagg (by simp)
    | cons b rest =>
        have hbar2 := Option.some.inj ((aggDay_of_cons hb).symm.trans hagg)
        subst hbar2
        exact key d b rest hb
  · intro bar hbar
    rcases List.mem_filterMap.mp hbar with ⟨d, _, hagg⟩
    cases hb : barsOn d l with
    | nil => rw [sqlAggDay_of_nil hb] at hagg; exact absurd hagg (by simp)
    | cons b rest =>
        have hbar2 := Option.some.inj ((sqlAggDay_of_cons hb).symm.trans hagg)
        subst hbar2
        exact key d b rest hb

/-- Witness for C6_high_ge_low on a concrete valid two-bar input: the
single aggregated daily bar has its low at or below its high. -/
theorem C6_high_ge_low_witness :
    ({ Date := 0, Open := 10, High := 12, Low := 1, Close := 3, Volume := 9 } : DailyBar).Low ≤
      ({ Date := 0, Open := 10, High := 12, Low := 1, Close := 3, Volume := 9 } : DailyBar).High :=
  (C6_high_ge_low [exBar1, exBar2] (by decide)).1 _ (by decide)

/-! ### Claim C7 -/

/-- Claim C7 counterexample: on a single daily bar (fewer than 2 dates)
the correlation reporter does not fail with InsufficientData; it
returns an ok 5-by-5 matrix all of whose entries are undefined
(missing, the embedding of NaN). -/
theorem C7_corr_counterexample :
    (correlationReport [exDaily1]).isOk = true ∧
    (correlationReport [exDaily1]).toOption =
      some (List.replicate 5 (List.replicate 5 none)) := by
  decide

/-- Claim C7 (amended): given fewer than 2 dates, the correlation
reporter does not fail; it returns an ok matrix in which every
correlation entry is undefined (a missing value standing for NaN). -/
theorem C7_corr_low_data (l : List DailyBar) (h : l.length < 2) :
    ∃ M, correlationReport l = Except.ok M ∧ ∀ row ∈ M, ∀ e ∈ row, e = none := by
  refine ⟨_, rfl, ?_⟩
  intro row hrow e he
  rcases List.mem_map.mp hrow with ⟨i, _, rfl⟩
  rcases List.mem_map.mp he with ⟨j, _, rfl⟩
  unfold corrEntry
  rw [if_pos]
  unfold columnSeries
  rw [List.length_map]
  exact h

/-- Witness for C7_corr_low_data at a single concrete daily bar. -/
theorem C7_corr_low_data_witness :
    ∃ M, correlationReport [exDaily1] = Except.ok M ∧
      ∀ row ∈ M, ∀ e ∈ row, e = none :=
  C7_corr_low_data [exDaily1] (by decide)

/-! ### Claim C9 -/

/-- Claim C9 counterexample: on a clean close series of five
observations the forecast index range start=len, end=len+30 contains
31 positions, not 30. -/
theorem C9_forecast_counterexample :
    (forecastOf [100, 101, 102, 103, 104]).length = 31 ∧
    (forecastOf [100, 101, 102, 103, 104]).length ≠ 30 := by
  decide

/-- Claim C9 (amended): for every clean close series the forecast
output consists of point forecasts for exactly 31 consecutive periods
(positions len .. len + 30 of the series, both endpoints included by
predict), every one of them at or beyond position len, the first
out-of-sample position. -/
theorem C9_forecast_horizon (es_close : List ℚ) :
    forecastOf es_close = List.range' es_close.length 31 ∧
    (forecastOf es_close).length = 31 ∧
    ∀ i ∈ forecastOf es_close, es_close.length ≤ i := by
  have h1 : forecastOf es_close = List.range' es_close.length 31 := by
    unfold forecastOf forecastIndices predictRange
    congr 1
    omega
  refine ⟨h1, ?_, fun i hi => ?_⟩
  · rw [h1]
    exact List.length_range' _ _ _
  · rw [h1] at hi
    exact (List.mem_range'_1.mp hi).1

/-- Witness for C9_forecast_horizon at a concrete five-element close
series: forecast position 35 lies at or beyond the series length. -/
theorem C9_forecast_horizon_witness :
    ([100, 101, 102, 103, 104] : List ℚ).length ≤ 35 :=
  (C9_forecast_horizon [100, 101, 102, 103, 104]).2.2 35 (by decide)

/-! ### Claim C10 -/

/-- Claim C10: the notebook resample output contains one row for every
calendar day from the earliest input date through the latest inclusive,
and on every such day with no input bar the row carries volume 0 and
missing open, high, low and close. -/
theorem C10_resample_gap_days (b : RawBar) (rest : List RawBar) :
    ((resampleDaily (b :: rest)).map DailyRow.Date =
      List.range' (loDay b rest) (hiDay b rest - loDay b rest + 1)) ∧
    ∀ row ∈ resampleDaily (b :: rest), barsOn row.Date (b :: rest) = [] →
      row.Volume = 0 ∧ row.Open = none ∧ row.High = none ∧
        row.Low = none ∧ row.Close = none := by
  refine ⟨resampleDaily_map_Date b rest, ?_⟩
  intro row hrow hempty
  unfold resampleDaily at hrow
  rcases List.mem_map.mp hrow with ⟨d, _, rfl⟩
  rw [resampleDay_Date] at hempty
  rw [resampleDay_of_empty hempty]
  exact ⟨rfl, rfl, rfl, rfl, rfl⟩

/-- Witness for C10_resample_gap_days: on the concrete input with bars
on days 0 and 2 only, the day-1 row carries zero volume and missing
open, high, low and close. -/
theorem C10_resample_gap_days_witness :
    (resampleDay 1 [exBar1, exBar3]).Volume = 0 ∧
    (resampleDay 1 [exBar1, exBar3]).Open = none ∧
    (resampleDay 1 [exBar1, exBar3]).High = none ∧
    (resampleDay 1 [exBar1, exBar3]).Low = none ∧
    (resampleDay 1 [exBar1, exBar3]).Close = none :=
  (C10_resample_gap_days exBar1 [exBar3]).2 (resampleDay 1 [exBar1, exBar3])
    (by decide) (by decide)

end ES
